import Mathlib

/-!
Verification of the VoxPop AI preference-to-allocation decision engine.

The TypeScript source is embedded shallowly over `ℚ`:

* JavaScript `number` arithmetic on the small, non-transcendental values
  used by the engine is modelled by exact rational arithmetic; the two
  places where results are visibly integer-rounded (`Math.round`,
  `Number.toFixed`) are modelled exactly (`jsRound`, `toFixedQ`).
* The Box-Muller gaussian draws and the `-ln` draws used by the random
  simplex sampler evaluate `Math.sqrt`/`Math.log`/`Math.cos` on IEEE
  doubles; those transcendental values are not representable exactly, so
  the simulator is parametrised by a `NoisePrims` record providing, for
  every stream-seed string and draw index, the gaussian (respectively
  `-ln`) value produced there.  Everything else — stream keying by seed
  string, draw ordering, clamping, averaging, scoring, sorting, the
  Pareto walk and all roundings — is embedded concretely.
* The seeded pseudo-random generator itself is integer-valued and is
  modelled exactly, including the IEEE-double rounding that JavaScript
  applies to `h * 1103515245 + 12345` (the product exceeds 2^53, so the
  engine does not implement the exact integer recurrence; `round53`
  models round-to-nearest-even at 53 significant bits).
-/

namespace VoxPop

/-! ## JavaScript numeric helpers -/

/-- JavaScript `Math.round`: round half toward positive infinity. -/
def jsRound (x : ℚ) : ℤ := ⌊x + 1/2⌋

/-- JavaScript `Number.prototype.toFixed f` followed by the unary `+`
that the source applies, modelled as exact rounding to `f` decimal
digits (ties away from the smaller value, per ECMA "pick the larger"). -/
def toFixedQ (f : ℕ) (x : ℚ) : ℚ := (jsRound (x * 10 ^ f) : ℚ) / 10 ^ f

/-- Clamp to the unit interval, as `Math.min(1, Math.max(0, x))`. -/
def clamp01 (x : ℚ) : ℚ := min 1 (max 0 x)

/-- `Math.max` over a list (used only on non-empty lists in the source). -/
def listMax : List ℚ → ℚ
  | [] => 0
  | x :: xs => xs.foldl max x

/-- `Math.min` over a list (used only on non-empty lists in the source). -/
def listMin : List ℚ → ℚ
  | [] => 0
  | x :: xs => xs.foldl min x

/-! ## Data model (src/lib/types.ts) -/

/-- The three objectives a value question can map to. -/
inductive Objective
  | accuracy
  | fairness
  | robustness
deriving DecidableEq, Repr

/-- `ValueQuestionType` from types.ts. -/
inductive VQType
  | likert
  | binary
deriving DecidableEq, Repr

/-- `ValueQuestion` from types.ts (fields not read by the inference
engine are omitted: the question text and related-asymmetry tag). -/
structure ValueQuestion where
  id : String
  type : VQType
  mapsTo : Objective
  weight : ℚ
deriving DecidableEq, Repr

/-- `ValueResponse` from types.ts. -/
structure ValueResponse where
  questionId : String
  answer : ℚ
deriving DecidableEq, Repr

/-- `ObjectiveWeights` from types.ts. -/
structure ObjectiveWeights where
  accuracy : ℚ
  fairness : ℚ
  robustness : ℚ
deriving DecidableEq, Repr

/-! ## Preference inference (src/lib/preferenceInference.ts) -/

/-- `normalizeLikert`: map a likert answer to a signal in [-1, 1]. -/
def normalizeLikert (answer : ℚ) : ℚ := (min 5 (max 1 answer) - 3) / 2

/-- `normalizeBinary`: map a binary answer to a signal of ±0.5. -/
def normalizeBinary (answer : ℚ) : ℚ := if 1 ≤ answer then 1/2 else -(1/2)

/-- The response lookup `responseMap.get(q.id)`.  The source builds a
`Map` by inserting every response in order, so a duplicated
`questionId` keeps the last answer; searching the reversed list for the
first match reproduces that. -/
def responseFor (responses : List ValueResponse) (qid : String) : Option ℚ :=
  (responses.reverse.find? (fun r => r.questionId == qid)).map (fun r => r.answer)

/-- One iteration of the signal-accumulation loop of
`inferObjectiveWeights`, acting on the running
(accuracy, fairness, robustness) triple. -/
def applyQuestion (responses : List ValueResponse) (st : ℚ × ℚ × ℚ)
    (q : ValueQuestion) : ℚ × ℚ × ℚ :=
  match responseFor responses q.id with
  | none => st
  | some answer =>
    let signal := match q.type with
      | .binary => normalizeBinary answer
      | .likert => normalizeLikert answer
    let strength := signal * q.weight * 15
    match q.mapsTo with
    | .accuracy =>
        (st.1 + strength, st.2.1 - strength * (6/10), st.2.2 - strength * (4/10))
    | .fairness =>
        (st.1 - strength * (6/10), st.2.1 + strength, st.2.2 - strength * (4/10))
    | .robustness =>
        (st.1 - strength * (1/2), st.2.1 - strength * (1/2), st.2.2 + strength)

/-- The final renormalization of `inferObjectiveWeights` applied to
already-clamped values: round accuracy and fairness proportionally and
give robustness the remainder so the sum is exactly 100. -/
def renorm3 (a f r : ℚ) : ObjectiveWeights :=
  ⟨((jsRound (a / (a + f + r) * 100) : ℤ) : ℚ),
   ((jsRound (f / (a + f + r) * 100) : ℤ) : ℚ),
   ((100 - jsRound (a / (a + f + r) * 100) - jsRound (f / (a + f + r) * 100) : ℤ) : ℚ)⟩

/-- Clamp-to-5 and renormalize, the tail of `inferObjectiveWeights`. -/
def renormalize (st : ℚ × ℚ × ℚ) : ObjectiveWeights :=
  renorm3 (max 5 st.1) (max 5 st.2.1) (max 5 st.2.2)

/-- `inferObjectiveWeights` from preferenceInference.ts: start from the
baseline (40, 40, 20), accumulate the per-question signals, clamp each
objective to at least 5, and renormalize to sum 100. -/
def inferObjectiveWeights (questions : List ValueQuestion)
    (responses : List ValueResponse) : ObjectiveWeights :=
  renormalize (questions.foldl (applyQuestion responses) (40, 40, 20))

/-! ## Community aggregation (analytics module, `computeCommunityWeights`) -/

/-- `SurveyResponse`, restricted to the only field
`computeCommunityWeights` reads. -/
structure SurveyResponse where
  accuracyVsFairness : ℚ
deriving DecidableEq, Repr

/-- The mean of the legacy `accuracyVsFairness` scalar over a response
list (the `avgAccuracy` local of the source). -/
def meanAccuracyVsFairness (rs : List SurveyResponse) : ℚ :=
  (rs.foldl (fun s r => s + r.accuracyVsFairness) 0) / rs.length

/-- `computeCommunityWeights` from the analytics module: empty input
gets a fixed default; otherwise robustness is pinned to 15 and the
remaining 85 points are split by the average accuracy-vs-fairness lean. -/
def computeCommunityWeights (rs : List SurveyResponse) : ObjectiveWeights :=
  if rs.length = 0 then ⟨50, 30, 20⟩
  else
    let accuracy := jsRound (meanAccuracyVsFairness rs / 100 * (100 - 15))
    ⟨(accuracy : ℚ), ((85 - accuracy : ℤ) : ℚ), 15⟩

/-! ## The seeded pseudo-random generator (valueQuestionAgent.ts /
simulatedAutoML.ts, `seededRandom`)

Both copies hash the seed string with `h = ((h << 5) - h + c) | 0` and
step the state with `h = (h * 1103515245 + 12345) & 0x7fffffff`; they
differ only in the output modulus (10000 vs 1000).  The hash is exact
32-bit integer arithmetic, but the state step multiplies doubles whose
product exceeds 2^53, so JavaScript rounds it to 53 significant bits
before the mask is applied.  `round53` models that rounding exactly. -/

/-- JavaScript `ToInt32`: wrap an integer into [-2^31, 2^31). -/
def toInt32 (n : ℤ) : ℤ := (n + 2 ^ 31) % 2 ^ 32 - 2 ^ 31

/-- One character step of the seed hash `h = ((h << 5) - h + c) | 0`. -/
def hashStep (h : ℤ) (c : ℕ) : ℤ := toInt32 (toInt32 (h * 32) - h + c)

/-- The seed-string hash of `seededRandom`. -/
def hashSeed (s : String) : ℤ := s.toList.foldl (fun h ch => hashStep h ch.toNat) 0

/-- Halve `m` until it fits in 53 bits, returning the quotient and the
number of halvings.  The fuel argument only bounds the recursion; 64
covers every value the generator can produce (all are below 2^62). -/
def shift53 : ℕ → ℕ → ℕ × ℕ
  | 0, m => (m, 0)
  | fuel + 1, m =>
    if m < 2 ^ 53 then (m, 0)
    else
      let p := shift53 fuel (m / 2)
      (p.1, p.2 + 1)

/-- Round a natural number to 53 significant bits, ties to even: the
value an IEEE double would hold after storing this integer. -/
def roundMant (m : ℕ) : ℕ :=
  if m < 2 ^ 53 then m
  else
    let e := (shift53 64 m).2
    let q := m / 2 ^ e
    let r := m % 2 ^ e
    let half := 2 ^ (e - 1)
    if half < r ∨ (r = half ∧ q % 2 = 1) then (q + 1) * 2 ^ e else q * 2 ^ e

/-- Round an integer to 53 significant bits (round to nearest, ties to
even — IEEE double rounding of an integer-valued result). -/
def round53 (n : ℤ) : ℤ := n.sign * (roundMant n.natAbs : ℤ)

/-- The state step actually computed by the source: double
multiplication and addition (each rounded to 53 bits) followed by the
`& 0x7fffffff` mask. -/
def jsNext (h : ℤ) : ℤ := round53 (round53 (h * 1103515245) + 12345) % 2 ^ 31

/-- The exact integer recurrence the specification describes:
`state = (state * 1103515245 + 12345) mod 2^31`. -/
def specNext (h : ℤ) : ℤ := (h * 1103515245 + 12345) % 2 ^ 31

/-- The generator state of `seededRandom seed` after `n` output draws
(state 0 is the seed hash; each draw advances the state once). -/
def jsState (seed : String) : ℕ → ℤ
  | 0 => hashSeed seed
  | n + 1 => jsNext (jsState seed n)

/-- The float a draw produces from a state: `(h % modulus) / modulus`
(modulus 10000 in valueQuestionAgent.ts, 1000 in simulatedAutoML.ts). -/
def rngOutput (modulus : ℕ) (h : ℤ) : ℚ := ((h % (modulus : ℤ) : ℤ) : ℚ) / (modulus : ℚ)

/-- The n-th output float of `seededRandom seed` (first call is n = 0). -/
def rngFloat (modulus : ℕ) (seed : String) (n : ℕ) : ℚ :=
  rngOutput modulus (jsState seed (n + 1))

/-! ## Group profiles (valueQuestionAgent.ts, `buildGroupProfiles`) -/

/-- `GroupStats` from types.ts: the `metrics` record is modelled as an
association list in object-key insertion order. -/
structure GroupStats where
  groupName : String
  count : ℚ
  metrics : List (String × ℚ)
deriving DecidableEq, Repr

/-- The `severity` tag of a `StructuralAsymmetry`. -/
inductive Severity
  | low
  | moderate
  | high
deriving DecidableEq, Repr

/-- `StructuralAsymmetry` from types.ts (`attribute` is a Lean keyword,
so that field is named `attrName` here). -/
structure StructuralAsymmetry where
  attrName : String
  groups : List GroupStats
  disparities : List String
  severity : Severity
  summary : String
deriving DecidableEq, Repr

/-- `GroupProfile` from valueQuestionAgent.ts. -/
structure GroupProfile where
  name : String
  baselineOutcome : ℚ
  responsiveness : ℚ
  populationShare : ℚ
deriving DecidableEq, Repr

/-- `String.prototype.endsWith`, modelled on the character list (the
built-in `String.endsWith` is equivalent but not kernel-reducible). -/
def strEndsWith (s suffix : String) : Bool :=
  suffix.toList.isSuffixOf s.toList

/-- `Object.keys(g.metrics).find(k => k.endsWith('_rate'))`. -/
def findRateKey (g : GroupStats) : Option String :=
  (g.metrics.map Prod.fst).find? (fun k => strEndsWith k ("_rate"))

/-- Lookup in the metrics record. -/
def metricsLookup (g : GroupStats) (k : String) : Option ℚ :=
  (g.metrics.find? (fun p => p.1 == k)).map (fun p => p.2)

/-- `groups.some(g => rateKey && g.metrics[rateKey] !== undefined)`: a
key found among `Object.keys` is always defined, so this is key
existence. -/
def hasTargetRate (groups : List GroupStats) : Bool :=
  groups.any (fun g => (findRateKey g).isSome)

/-- The fixed fallback pair returned when asymmetry data is sparse. -/
def fallbackProfiles : List GroupProfile :=
  [⟨"Group A (Advantaged)", 85/100, 1/10, 1/2⟩,
   ⟨"Group B (Disadvantaged)", 55/100, 35/100, 1/2⟩]

/-- The per-group body of the `groups.map` in `buildGroupProfiles`. -/
def buildOneProfile (hasRate : Bool) (numGroups : ℕ) (totalCount : ℚ)
    (i : ℕ) (g : GroupStats) : GroupProfile :=
  let baselineOutcome : ℚ :=
    if hasRate then
      match findRateKey g with
      | some k => (metricsLookup g k).getD (7/10)
      | none => 7/10
    else 85/100 - (i : ℚ) * ((25/100) / (max (numGroups - 1) 1 : ℕ))
  let responsiveness := max (5/100) ((4/10) * (1 - baselineOutcome))
  { name := g.groupName
    baselineOutcome := max (3/10) (min (95/100) baselineOutcome)
    responsiveness := responsiveness
    populationShare :=
      if 0 < totalCount then g.count / totalCount else 1 / (numGroups : ℚ) }

/-- `buildGroupProfiles` from valueQuestionAgent.ts: fewer than two
groups (or no asymmetry at all) falls back to the fixed two-group
model; otherwise shares come from counts, baselines from a `_rate`
metric when any group has one (else an evenly spaced descent from
0.85), and responsiveness inversely from the baseline. -/
def buildGroupProfiles : Option StructuralAsymmetry → List GroupProfile
  | none => fallbackProfiles
  | some asym =>
    if asym.groups.length < 2 then fallbackProfiles
    else
      let groups := asym.groups
      let totalCount := groups.foldl (fun s g => s + g.count) 0
      let hasRate := hasTargetRate groups
      groups.enum.map (fun ig => buildOneProfile hasRate groups.length totalCount ig.1 ig.2)

/-! ## Serialization of allocation vectors

The per-candidate stream seed is `seed + alloc.join('-')`.  For the
two-group grid the allocation entries are the exact rationals `i/20`
and `1 - i/20`, whose JavaScript string forms are their terminating
decimal expansions; `jsNumToString` prints exactly those.  (Values
with non-terminating expansions only arise through the abstract
transcendental draws and are printed here to 30 digits; the simulator
treats the resulting string opaquely as a stream key.) -/

/-- Decimal digits of a fractional part `x ∈ [0,1)`, up to `fuel`
digits, stopping when the remainder is zero. -/
def fracDigits : ℕ → ℚ → String
  | 0, _ => ""
  | fuel + 1, x =>
    if x = 0 then ""
    else
      let d := (⌊x * 10⌋).toNat
      Nat.repr d ++ fracDigits fuel (x * 10 - (d : ℚ))

/-- JavaScript number-to-string for the rationals the engine
serializes: integer values print without a decimal point, others with
their decimal expansion. -/
def jsNumToString (q : ℚ) : String :=
  let sign := if q < 0 then ("-") else ("")
  let m := |q|
  let fr := m - (⌊m⌋ : ℚ)
  sign ++ Nat.repr (⌊m⌋).toNat ++
    (if fr = 0 then ("") else ("." ++ fracDigits 30 fr))

/-! ## Monte Carlo allocation simulator (valueQuestionAgent.ts) -/

/-- The two families of transcendental draw values the simulator
consumes, keyed by stream-seed string and draw index:
`gaussDraw s k` is the k-th Box-Muller standard-normal value produced
by `gaussianNoise` over the stream seeded by `s`, and `negLnDraw s k`
is the k-th value of `-Math.log(Math.max(u, 0.0001))` over the stream
seeded by `s`.  The source computes these through IEEE-double
`sqrt`/`log`/`cos` on the exact draws modelled in the RNG section;
their values are abstracted here, their plumbing is not. -/
structure NoisePrims where
  gaussDraw : String → ℕ → ℚ
  negLnDraw : String → ℕ → ℚ

/-- `simulateOutcome`: given the allocation vector, group profiles and
the stream position `baseIdx` (number of gaussian draws already
consumed from this stream), produce the population-weighted overall
outcome and the max-minus-min fairness gap of one noisy run. -/
def simulateOutcome (P : NoisePrims) (streamSeed : String) (baseIdx : ℕ)
    (allocations : List ℚ) (profiles : List GroupProfile) : ℚ × ℚ :=
  let outcomes := profiles.enum.map (fun ip =>
    let p := ip.2
    let alloc := allocations.getD ip.1 0
    let noise := P.gaussDraw streamSeed (baseIdx + ip.1) * (2/100)
    clamp01 (p.baselineOutcome + alloc * p.responsiveness + noise))
  let overallOutcome :=
    (outcomes.zip profiles).foldl (fun s op => s + op.1 * op.2.populationShare) 0
  (overallOutcome, listMax outcomes - listMin outcomes)

/-- `generateAllocationGrid`: a uniform sweep of `steps+1` splits for
two groups; otherwise `steps*5` normalized vectors of `-ln` draws from
the stream seeded `'grid-' + numGroups`. -/
def generateAllocationGrid (P : NoisePrims) (numGroups : ℕ) (steps : ℕ) : List (List ℚ) :=
  if numGroups = 2 then
    (List.range (steps + 1)).map (fun i => [(i : ℚ) / (steps : ℚ), 1 - (i : ℚ) / (steps : ℚ)])
  else
    (List.range (steps * 5)).map (fun i =>
      let raw := (List.range numGroups).map (fun j =>
        P.negLnDraw ("grid-" ++ toString numGroups) (i * numGroups + j))
      let total := raw.foldl (fun s v => s + v) 0
      raw.map (fun v => v / total))

/-- The accumulation of `numRuns` simulated (outcome, gap) pairs for
one allocation, consuming the stream run-major then group-major, as
the nested loops of the source do. -/
def mcRunTotals (P : NoisePrims) (streamSeed : String) (numGroups : ℕ)
    (alloc : List ℚ) (profiles : List GroupProfile) (numRuns : ℕ) : ℚ × ℚ :=
  (List.range numRuns).foldl (fun acc run =>
    let res := simulateOutcome P streamSeed (run * numGroups) alloc profiles
    (acc.1 + res.1, acc.2 + res.2)) (0, 0)

/-- A scored candidate allocation (the element type of the `results`
array of `runMonteCarloAllocation`). -/
structure Candidate where
  allocations : List ℚ
  avgOutcome : ℚ
  avgFairnessGap : ℚ
  score : ℚ
deriving DecidableEq, Repr

/-- The candidate list of `runMonteCarloAllocation`, in grid
(generation) order: per-candidate stream keyed by
`seed + alloc.join('-')`, averages over `numRuns`, and the combined
score `(accuracy/100)·outcome + (fairness/100)·(1 - gap)`. -/
def mcCandidatesOf (P : NoisePrims) (w : ObjectiveWeights)
    (profiles : List GroupProfile) (numRuns : ℕ) (seed : String) : List Candidate :=
  let numGroups := profiles.length
  (generateAllocationGrid P numGroups 20).map (fun alloc =>
    let streamSeed := seed ++ String.intercalate ("-") (alloc.map jsNumToString)
    let totals := mcRunTotals P streamSeed numGroups alloc profiles numRuns
    let avgOutcome := totals.1 / (numRuns : ℚ)
    let avgGap := totals.2 / (numRuns : ℚ)
    ⟨alloc, avgOutcome, avgGap,
     w.accuracy / 100 * avgOutcome + w.fairness / 100 * (1 - avgGap)⟩)

/-- `results.sort((a, b) => b.score - a.score)`: stable descending sort
by score (ECMAScript `Array.prototype.sort` is stable; Mathlib's
insertion sort with this total preorder is the same stable order). -/
def sortByScoreDesc (l : List Candidate) : List Candidate :=
  l.insertionSort (fun a b => b.score ≤ a.score)

/-- `[...results].sort((a, b) => b.avgOutcome - a.avgOutcome)`: stable
descending sort by average outcome, applied (as in the source) to the
already score-sorted array. -/
def sortByOutcomeDesc (l : List Candidate) : List Candidate :=
  l.insertionSort (fun a b => b.avgOutcome ≤ a.avgOutcome)

/-- The running-best test of the Pareto walk (`bestGapSoFar` starts at
`Infinity`, modelled as `none`). -/
def improves (best : Option ℚ) (g : ℚ) : Bool :=
  match best with
  | none => true
  | some b => decide (g < b)

/-- The frontier-extraction walk: emit a candidate iff its average
fairness gap strictly improves on the best seen so far. -/
def paretoWalk (best : Option ℚ) : List Candidate → List Candidate
  | [] => []
  | c :: rest =>
    if improves best c.avgFairnessGap then c :: paretoWalk (some c.avgFairnessGap) rest
    else paretoWalk best rest

/-- A Pareto frontier point as returned (4-decimal rounded metrics,
3-decimal rounded first-group allocation). -/
structure ParetoPoint where
  outcome : ℚ
  fairnessGap : ℚ
  allocation : ℚ
deriving DecidableEq, Repr

/-- The rounding applied to an emitted frontier candidate. -/
def roundPoint (c : Candidate) : ParetoPoint :=
  ⟨toFixedQ 4 c.avgOutcome, toFixedQ 4 c.avgFairnessGap, toFixedQ 3 (c.allocations.headD 0)⟩

/-- `AllocationArm` from types.ts. -/
structure AllocationArm where
  groupName : String
  allocation : ℚ
deriving DecidableEq, Repr

/-- The `confidence` rating of a `MonteCarloResult`. -/
inductive Confidence
  | low
  | moderate
  | high
deriving DecidableEq, Repr

/-- `MonteCarloResult` from types.ts. -/
structure MonteCarloResult where
  totalRuns : ℕ
  optimalAllocation : List AllocationArm
  expectedOutcome : ℚ
  fairnessImprovement : ℚ
  efficiencySacrifice : ℚ
  confidence : Confidence
  paretoFrontier : List ParetoPoint
deriving DecidableEq, Repr

/-- The score-sorted candidate list (the state of `results` after the
in-place sort). -/
def mcSortedOf (P : NoisePrims) (w : ObjectiveWeights)
    (profiles : List GroupProfile) (numRuns : ℕ) (seed : String) : List Candidate :=
  sortByScoreDesc (mcCandidatesOf P w profiles numRuns seed)

/-- `results[0]` after the score sort (the grid is never empty in the
source; the default is unreachable there). -/
def mcOptimalOf (P : NoisePrims) (w : ObjectiveWeights)
    (profiles : List GroupProfile) (numRuns : ℕ) (seed : String) : Candidate :=
  (mcSortedOf P w profiles numRuns seed).headD ⟨[], 0, 0, 0⟩

/-- The average overall outcome of the equal-split baseline, streamed
from `seed + 'equal'`. -/
def equalOutcomeAvgOf (P : NoisePrims) (profiles : List GroupProfile)
    (numRuns : ℕ) (seed : String) : ℚ :=
  let numGroups := profiles.length
  let equalAlloc := List.replicate numGroups ((1 : ℚ) / (numGroups : ℚ))
  (mcRunTotals P (seed ++ "equal") numGroups equalAlloc profiles numRuns).1 / (numRuns : ℚ)

/-- The average fairness gap of the equal-split baseline, streamed from
`seed + 'equal-gap'`. -/
def equalGapAvgOf (P : NoisePrims) (profiles : List GroupProfile)
    (numRuns : ℕ) (seed : String) : ℚ :=
  let numGroups := profiles.length
  let equalAlloc := List.replicate numGroups ((1 : ℚ) / (numGroups : ℚ))
  (mcRunTotals P (seed ++ "equal-gap") numGroups equalAlloc profiles numRuns).2 / (numRuns : ℚ)

/-- `runMonteCarloAllocation` on an explicit profile list (the body of
the source function after `buildGroupProfiles`; the 600 ms UI delay
carries no semantic content and is dropped). -/
def runMCProfiles (P : NoisePrims) (w : ObjectiveWeights)
    (profiles : List GroupProfile) (numRuns : ℕ) (seed : String) : MonteCarloResult :=
  let numGroups := profiles.length
  let sorted := mcSortedOf P w profiles numRuns seed
  let optimal := mcOptimalOf P w profiles numRuns seed
  let equalOutcome := equalOutcomeAvgOf P profiles numRuns seed
  let efficiencySacrifice :=
    max 0 ((equalOutcome - optimal.avgOutcome) / equalOutcome * 100)
  let equalGap := equalGapAvgOf P profiles numRuns seed
  let fairnessImprovement :=
    if 0 < equalGap then max 0 ((equalGap - optimal.avgFairnessGap) / equalGap * 100) else 0
  let topScores := (sorted.take 5).map (fun c => c.score)
  let scoreVariance :=
    if 1 < topScores.length then
      (topScores.foldl (fun s v => s + (v - topScores.headD 0) ^ 2) 0) / (topScores.length : ℚ)
    else 0
  { totalRuns := numRuns * (generateAllocationGrid P numGroups 20).length
    optimalAllocation := profiles.enum.map (fun ip =>
      ⟨ip.2.name, toFixedQ 3 (optimal.allocations.getD ip.1 0)⟩)
    expectedOutcome := toFixedQ 1 (optimal.avgOutcome * 100)
    fairnessImprovement := toFixedQ 1 fairnessImprovement
    efficiencySacrifice := toFixedQ 1 efficiencySacrifice
    confidence :=
      if 500 ≤ numRuns ∧ scoreVariance < 1/1000 then .high
      else if 100 ≤ numRuns then .moderate
      else .low
    paretoFrontier := (paretoWalk none (sortByOutcomeDesc sorted)).map roundPoint }

/-- `runMonteCarloAllocation` from valueQuestionAgent.ts. -/
def runMonteCarloAllocation (P : NoisePrims) (w : ObjectiveWeights)
    (asym : Option StructuralAsymmetry) (numRuns : ℕ) (seed : String) : MonteCarloResult :=
  runMCProfiles P w (buildGroupProfiles asym) numRuns seed

/-- The property §7 of the spec demands of weights reaching the
simulator: components sum to 100 and none is negative. -/
def weightsWellFormed (w : ObjectiveWeights) : Prop :=
  w.accuracy + w.fairness + w.robustness = 100 ∧
    0 ≤ w.accuracy ∧ 0 ≤ w.fairness ∧ 0 ≤ w.robustness

instance (w : ObjectiveWeights) : Decidable (weightsWellFormed w) := by
  unfold weightsWellFormed; infer_instance

/-! ## Concrete inputs used by witnesses and counterexamples -/

/-- Noise primitives that are identically zero (gaussian part) and
identically one (`-ln` part): one admissible instantiation of the
abstracted transcendentals. -/
def zeroNoise : NoisePrims := ⟨fun _ _ => 0, fun _ _ => 1⟩

/-- Noise primitives that produce a single non-zero gaussian value, on
the first draw of the candidate stream `"s" + "0.05-0.95"`: they nudge
the `a = 0.05` candidate so that two adjacent frontier gaps differ by
less than one unit in the fourth decimal. -/
def nearTieNoise : NoisePrims :=
  ⟨fun st k => if st = "s0.05-0.95" ∧ k = 0 then 1123/1000 else 0, fun _ _ => 1⟩

/-- A question mapped to robustness with weight multiplier 7. -/
def strongRobustnessQ : ValueQuestion := ⟨"q1", .likert, .robustness, 7⟩

/-- A strongly-agreeing likert response to `strongRobustnessQ`. -/
def strongAgree : ValueResponse := ⟨"q1", 5⟩

/-- An asymmetry with a single group (sparse data). -/
def oneGroupAsym : StructuralAsymmetry :=
  ⟨"region", [⟨"G1", 3, [("x_rate", 2/5)]⟩], [], .low, ""⟩

/-- An asymmetry whose two groups have identical outcome rates and
counts, so the equal-split baseline has zero fairness gap under zero
noise. -/
def twinGroupAsym : StructuralAsymmetry :=
  ⟨"region", [⟨"G1", 1, [("x_rate", 1/2)]⟩, ⟨"G2", 1, [("x_rate", 1/2)]⟩], [], .low, ""⟩

/-- Malformed objective weights: negative components, sum 100 exceeded. -/
def badWeights : ObjectiveWeights := ⟨200, -50, -50⟩

/-- A balanced weights record used as a neutral simulator input. -/
def evenWeights : ObjectiveWeights := ⟨40, 40, 20⟩

/-! ## Rounding lemmas -/

theorem jsRound_nonneg {x : ℚ} (h : 0 ≤ x) : 0 ≤ jsRound x := by
  unfold jsRound
  exact Int.floor_nonneg.mpr (by linarith)

theorem jsRound_cast_le (x : ℚ) : (jsRound x : ℚ) ≤ x + 1/2 := Int.floor_le _

theorem jsRound_mono {x y : ℚ} (h : x ≤ y) : jsRound x ≤ jsRound y :=
  Int.floor_mono (by linarith)

theorem toFixedQ_nonneg (f : ℕ) {x : ℚ} (h : 0 ≤ x) : 0 ≤ toFixedQ f x := by
  unfold toFixedQ
  apply div_nonneg _ (by positivity)
  exact_mod_cast jsRound_nonneg (by positivity)

theorem toFixedQ_mono (f : ℕ) {x y : ℚ} (h : x ≤ y) : toFixedQ f x ≤ toFixedQ f y := by
  unfold toFixedQ
  apply div_le_div_of_nonneg_right ?_ (by positivity)
  exact_mod_cast jsRound_mono (mul_le_mul_of_nonneg_right h (by positivity))

/-! ## Preference inference: renormalization facts -/

theorem renorm3_sum (a f r : ℚ) :
    (renorm3 a f r).accuracy + (renorm3 a f r).fairness + (renorm3 a f r).robustness = 100 := by
  simp only [renorm3]
  push_cast
  ring

theorem renorm3_acc_nonneg {a f r : ℚ} (ha : 0 < a) (hf : 0 < f) (hr : 0 < r) :
    0 ≤ (renorm3 a f r).accuracy := by
  simp only [renorm3]
  have hT : (0 : ℚ) < a + f + r := by linarith
  have hx : (0 : ℚ) ≤ a / (a + f + r) * 100 := by positivity
  exact_mod_cast jsRound_nonneg hx

theorem renorm3_fair_nonneg {a f r : ℚ} (ha : 0 < a) (hf : 0 < f) (hr : 0 < r) :
    0 ≤ (renorm3 a f r).fairness := by
  simp only [renorm3]
  have hT : (0 : ℚ) < a + f + r := by linarith
  have hx : (0 : ℚ) ≤ f / (a + f + r) * 100 := by positivity
  exact_mod_cast jsRound_nonneg hx

theorem renorm3_rob_nonneg {a f r : ℚ} (ha : 0 < a) (hf : 0 < f) (hr : 0 < r) :
    0 ≤ (renorm3 a f r).robustness := by
  simp only [renorm3]
  have hT : (0 : ℚ) < a + f + r := by linarith
  have hA : (jsRound (a / (a + f + r) * 100) : ℚ) ≤ a / (a + f + r) * 100 + 1/2 :=
    jsRound_cast_le _
  have hF : (jsRound (f / (a + f + r) * 100) : ℚ) ≤ f / (a + f + r) * 100 + 1/2 :=
    jsRound_cast_le _
  have h2 : a / (a + f + r) * 100 + f / (a + f + r) * 100 = (a + f) / (a + f + r) * 100 := by
    ring
  have h1 : (a + f) / (a + f + r) < 1 := (div_lt_one hT).mpr (by linarith)
  have hsum : a / (a + f + r) * 100 + f / (a + f + r) * 100 < 100 := by
    rw [h2]
    nlinarith
  have hlt : (jsRound (a / (a + f + r) * 100) : ℚ) + (jsRound (f / (a + f + r) * 100) : ℚ) < 101 := by
    linarith
  have hint : jsRound (a / (a + f + r) * 100) + jsRound (f / (a + f + r) * 100) < 101 := by
    exact_mod_cast hlt
  have hz : (0 : ℤ) ≤ 100 - jsRound (a / (a + f + r) * 100) - jsRound (f / (a + f + r) * 100) := by
    omega
  exact_mod_cast hz

theorem renorm3_rob_remainder (a f r : ℚ) :
    (renorm3 a f r).robustness = 100 - (renorm3 a f r).accuracy - (renorm3 a f r).fairness := by
  simp only [renorm3]
  push_cast
  ring

/-- C1 (amended): for every question and response list,
`inferObjectiveWeights` returns components summing to exactly 100 with
the rounding remainder assigned to robustness alone, and every
component is non-negative.  The per-component minimum of 5 holds only
for the values entering the renormalization; the rounded output can
fall below 5 (see the counterexample). -/
theorem inferObjectiveWeights_normalized (qs : List ValueQuestion) (rs : List ValueResponse) :
    (inferObjectiveWeights qs rs).accuracy + (inferObjectiveWeights qs rs).fairness +
        (inferObjectiveWeights qs rs).robustness = 100 ∧
    0 ≤ (inferObjectiveWeights qs rs).accuracy ∧
    0 ≤ (inferObjectiveWeights qs rs).fairness ∧
    0 ≤ (inferObjectiveWeights qs rs).robustness ∧
    (inferObjectiveWeights qs rs).robustness =
      100 - (inferObjectiveWeights qs rs).accuracy - (inferObjectiveWeights qs rs).fairness := by
  unfold inferObjectiveWeights renormalize
  have h1 : (0 : ℚ) < max 5 (qs.foldl (applyQuestion rs) (40, 40, 20)).1 :=
    lt_of_lt_of_le (by norm_num) (le_max_left _ _)
  have h2 : (0 : ℚ) < max 5 (qs.foldl (applyQuestion rs) (40, 40, 20)).2.1 :=
    lt_of_lt_of_le (by norm_num) (le_max_left _ _)
  have h3 : (0 : ℚ) < max 5 (qs.foldl (applyQuestion rs) (40, 40, 20)).2.2 :=
    lt_of_lt_of_le (by norm_num) (le_max_left _ _)
  exact ⟨renorm3_sum _ _ _, renorm3_acc_nonneg h1 h2 h3, renorm3_fair_nonneg h1 h2 h3,
    renorm3_rob_nonneg h1 h2 h3, renorm3_rob_remainder _ _ _⟩

unseal Rat.add Rat.mul Rat.inv Rat.sub in
/-- C1 counterexample: a single strongly-agreed robustness question
with weight multiplier 7 drives the rounded accuracy component to 4,
below the claimed minimum of 5 (the full result is (4, 4, 92)). -/
theorem inferObjectiveWeights_min5_fails :
    (inferObjectiveWeights [strongRobustnessQ] [strongAgree]).accuracy < 5 := by decide

/-! ## Preference inference: baseline behaviour -/

theorem responseFor_eq_none {rs : List ValueResponse} {qid : String}
    (h : ∀ r ∈ rs, r.questionId ≠ qid) : responseFor rs qid = none := by
  unfold responseFor
  have hn : rs.reverse.find? (fun r => r.questionId == qid) = none := by
    rw [List.find?_eq_none]
    intro r hr
    simpa using h r (List.mem_reverse.mp hr)
  rw [hn]
  rfl

theorem foldl_applyQuestion_eq_init (rs : List ValueResponse) :
    ∀ (qs : List ValueQuestion) (st : ℚ × ℚ × ℚ),
      (∀ q ∈ qs, responseFor rs q.id = none) →
      qs.foldl (applyQuestion rs) st = st
  | [], _, _ => rfl
  | q :: qs, st, h => by
    have h1 : responseFor rs q.id = none := h q (List.mem_cons_self _ _)
    have h2 : applyQuestion rs st q = st := by
      unfold applyQuestion
      rw [h1]
    rw [List.foldl_cons, h2]
    exact foldl_applyQuestion_eq_init rs qs st (fun q hq => h q (List.mem_cons_of_mem _ hq))

unseal Rat.add Rat.mul Rat.inv Rat.sub in
/-- C10: if no response's `questionId` matches any question's id (in
particular when the response list is empty), `inferObjectiveWeights`
returns exactly the baseline weights (40, 40, 20). -/
theorem inferObjectiveWeights_baseline (qs : List ValueQuestion) (rs : List ValueResponse)
    (h : ∀ r ∈ rs, ∀ q ∈ qs, r.questionId ≠ q.id) :
    inferObjectiveWeights qs rs = ⟨40, 40, 20⟩ := by
  unfold inferObjectiveWeights
  rw [foldl_applyQuestion_eq_init rs qs _
    (fun q hq => responseFor_eq_none (fun r hr => h r hr q hq))]
  decide

/-- C10 witness: a concrete question list and a non-matching response. -/
theorem inferObjectiveWeights_baseline_witness :
    (∀ r ∈ [(⟨"zz", 5⟩ : ValueResponse)], ∀ q ∈ [(⟨"qa", .likert, .accuracy, 1⟩ : ValueQuestion)],
        r.questionId ≠ q.id) ∧
    inferObjectiveWeights [⟨"qa", .likert, .accuracy, 1⟩] [⟨"zz", 5⟩] = ⟨40, 40, 20⟩ :=
  ⟨by decide, inferObjectiveWeights_baseline _ _ (by decide)⟩

/-! ## Community weights -/

/-- C9: on any non-empty response list `computeCommunityWeights` pins
robustness to 15, sets accuracy to the rounded
`mean(accuracyVsFairness)/100 * 85`, sets fairness to `85 - accuracy`,
and the three sum to 100. -/
theorem computeCommunityWeights_split (rs : List SurveyResponse) (h : rs ≠ []) :
    (computeCommunityWeights rs).robustness = 15 ∧
    (computeCommunityWeights rs).accuracy =
      ((jsRound (meanAccuracyVsFairness rs / 100 * 85) : ℤ) : ℚ) ∧
    (computeCommunityWeights rs).fairness = 85 - (computeCommunityWeights rs).accuracy ∧
    (computeCommunityWeights rs).accuracy + (computeCommunityWeights rs).fairness +
      (computeCommunityWeights rs).robustness = 100 := by
  have hlen : ¬ rs.length = 0 := by simpa [List.length_eq_zero] using h
  unfold computeCommunityWeights
  rw [if_neg hlen]
  refine ⟨rfl, ?_, ?_, ?_⟩
  · show ((jsRound (meanAccuracyVsFairness rs / 100 * (100 - 15)) : ℤ) : ℚ) =
      ((jsRound (meanAccuracyVsFairness rs / 100 * 85) : ℤ) : ℚ)
    norm_num
  · show ((85 - jsRound (meanAccuracyVsFairness rs / 100 * (100 - 15)) : ℤ) : ℚ) =
      85 - ((jsRound (meanAccuracyVsFairness rs / 100 * (100 - 15)) : ℤ) : ℚ)
    push_cast
    ring
  · show ((jsRound (meanAccuracyVsFairness rs / 100 * (100 - 15)) : ℤ) : ℚ) +
      ((85 - jsRound (meanAccuracyVsFairness rs / 100 * (100 - 15)) : ℤ) : ℚ) + (15 : ℚ) = 100
    push_cast
    ring

/-- C9 witness: one response with a middle accuracy-vs-fairness lean. -/
theorem computeCommunityWeights_split_witness :
    ([(⟨50⟩ : SurveyResponse)] ≠ ([] : List SurveyResponse)) ∧
    (computeCommunityWeights [⟨50⟩]).robustness = 15 ∧
    (computeCommunityWeights [⟨50⟩]).accuracy + (computeCommunityWeights [⟨50⟩]).fairness +
      (computeCommunityWeights [⟨50⟩]).robustness = 100 :=
  ⟨by decide, (computeCommunityWeights_split [⟨50⟩] (by decide)).1,
   (computeCommunityWeights_split [⟨50⟩] (by decide)).2.2.2⟩

/-! ## Seeded pseudo-random generator -/

theorem round53_eq_self {n : ℤ} (h : n.natAbs < 2 ^ 53) : round53 n = n := by
  unfold round53 roundMant
  rw [if_pos h]
  exact Int.sign_mul_natAbs n

/-- C8 (amended): the generator is the 53-bit-rounded version of the
claimed recurrence — it agrees with the exact integer recurrence
`state * 1103515245 + 12345 mod 2^31` precisely while the intermediate
products stay below 2^53 (the seed hash's first step does; later states
do not, see the counterexample) — and every output float lies in
[0, 1). -/
theorem seededRandom_contract :
    (∀ h : ℤ, (h * 1103515245).natAbs < 2 ^ 53 →
        (round53 (h * 1103515245) + 12345).natAbs < 2 ^ 53 → jsNext h = specNext h) ∧
    (∀ (modulus : ℕ) (seed : String) (n : ℕ), 0 < modulus →
        0 ≤ rngFloat modulus seed n ∧ rngFloat modulus seed n < 1) := by
  constructor
  · intro h h1 h2
    unfold jsNext specNext
    rw [round53_eq_self h1] at h2 ⊢
    rw [round53_eq_self h2]
  · intro m seed n hm
    have hmz : (m : ℤ) ≠ 0 := by exact_mod_cast hm.ne'
    have hmq : (0 : ℚ) < (m : ℚ) := by exact_mod_cast hm
    unfold rngFloat rngOutput
    constructor
    · apply div_nonneg _ (le_of_lt hmq)
      exact_mod_cast Int.emod_nonneg _ hmz
    · rw [div_lt_one hmq]
      have hlt : jsState seed (n + 1) % (m : ℤ) < (m : ℤ) :=
        Int.emod_lt_of_pos _ (by exact_mod_cast hm)
      exact_mod_cast hlt

set_option maxRecDepth 10000 in
/-- C8 witness: at the state 97 (the hash of seed "a") the rounded and
exact recurrences agree, and the first output of that seed lies in
[0, 1). -/
theorem seededRandom_contract_witness :
    ((97 * 1103515245 : ℤ).natAbs < 2 ^ 53) ∧ jsNext 97 = specNext 97 ∧
    ((0 : ℚ) ≤ rngFloat 10000 ("a") 0 ∧ rngFloat 10000 ("a") 0 < 1) :=
  ⟨by decide,
   seededRandom_contract.1 97 (by decide) (by decide),
   seededRandom_contract.2 10000 ("a") 0 (by decide)⟩

set_option maxRecDepth 100000 in
/-- C8 counterexample: for seed "a" the second state of the generator
is 326670336, while the exact integer recurrence demands 326670407 —
the double product `1814292358 * 1103515245` exceeds 2^53 and is
rounded before the mask. -/
theorem seededRandom_exact_recurrence_fails :
    jsState ("a") 2 ≠ specNext (jsState ("a") 1) := by decide

/-! ## Group profile fallback -/

/-- C6: `buildGroupProfiles` of a null asymmetry, or of any asymmetry
with fewer than two groups, returns exactly the advantaged
(0.85, 0.10, 0.5) / disadvantaged (0.55, 0.35, 0.5) pair, whose
population shares sum to 1. -/
theorem buildGroupProfiles_fallback :
    buildGroupProfiles none =
      [⟨"Group A (Advantaged)", 85/100, 1/10, 1/2⟩,
       ⟨"Group B (Disadvantaged)", 55/100, 35/100, 1/2⟩] ∧
    (∀ asym : StructuralAsymmetry, asym.groups.length < 2 →
      buildGroupProfiles (some asym) =
        [⟨"Group A (Advantaged)", 85/100, 1/10, 1/2⟩,
         ⟨"Group B (Disadvantaged)", 55/100, 35/100, 1/2⟩]) ∧
    ((buildGroupProfiles none).map GroupProfile.populationShare).sum = 1 := by
  refine ⟨rfl, ?_, by norm_num [buildGroupProfiles, fallbackProfiles]⟩
  intro asym h
  simp only [buildGroupProfiles]
  rw [if_pos h]
  rfl

/-- C6 witness: a concrete single-group asymmetry takes the fallback. -/
theorem buildGroupProfiles_fallback_witness :
    oneGroupAsym.groups.length < 2 ∧
    buildGroupProfiles (some oneGroupAsym) =
      [⟨"Group A (Advantaged)", 85/100, 1/10, 1/2⟩,
       ⟨"Group B (Disadvantaged)", 55/100, 35/100, 1/2⟩] :=
  ⟨by decide, buildGroupProfiles_fallback.2.1 oneGroupAsym (by decide)⟩

/-! ## Monte Carlo simulator: determinism -/

/-- C2: `runMonteCarloAllocation` is a pure function of its weights,
asymmetry, runs-per-point and seed arguments (and of the fixed
transcendental draw tables): two calls with the same four arguments
return the same `MonteCarloResult` in every field.  The embedding is
total and reads no ambient state — the source's only effect, the
600 ms UI delay, carries no data. -/
theorem runMonteCarloAllocation_deterministic (P : NoisePrims) (w : ObjectiveWeights)
    (asym : Option StructuralAsymmetry) (numRuns : ℕ) (seed : String) :
    runMonteCarloAllocation P w asym numRuns seed =
      runMonteCarloAllocation P w asym numRuns seed := rfl

/-! ## Pareto walk lemmas -/

theorem improves_trans {best : Option ℚ} {g x : ℚ}
    (hx : x < g) (hg : improves best g = true) : improves best x = true := by
  cases best with
  | none => rfl
  | some b =>
    simp only [improves, decide_eq_true_eq] at hg ⊢
    exact lt_trans hx hg

theorem paretoWalk_mem_improves :
    ∀ (l : List Candidate) (best : Option ℚ) (c : Candidate),
      c ∈ paretoWalk best l → improves best c.avgFairnessGap = true := by
  intro l
  induction l with
  | nil => intro best c h; simp [paretoWalk] at h
  | cons c0 rest ih =>
    intro best c h
    simp only [paretoWalk] at h
    split at h
    next hcond =>
      rcases List.mem_cons.mp h with rfl | h1
      · exact hcond
      · have h3 : c.avgFairnessGap < c0.avgFairnessGap := by
          simpa [improves] using ih (some c0.avgFairnessGap) c h1
        exact improves_trans h3 hcond
    next hcond => exact ih best c h

theorem paretoWalk_sublist :
    ∀ (l : List Candidate) (best : Option ℚ), (paretoWalk best l).Sublist l := by
  intro l
  induction l with
  | nil => intro best; simp [paretoWalk]
  | cons c0 rest ih =>
    intro best
    simp only [paretoWalk]
    split
    · exact List.Sublist.cons₂ c0 (ih (some c0.avgFairnessGap))
    · exact List.Sublist.cons c0 (ih best)

theorem paretoWalk_pairwise :
    ∀ (l : List Candidate) (best : Option ℚ),
      (paretoWalk best l).Pairwise (fun p q => q.avgFairnessGap < p.avgFairnessGap) := by
  intro l
  induction l with
  | nil => intro best; simp [paretoWalk]
  | cons c0 rest ih =>
    intro best
    simp only [paretoWalk]
    split
    · refine List.Pairwise.cons ?_ (ih (some c0.avgFairnessGap))
      intro q hq
      simpa [improves] using paretoWalk_mem_improves rest (some c0.avgFairnessGap) q hq
    · exact ih best

theorem sortByOutcomeDesc_pairwise (l : List Candidate) :
    (sortByOutcomeDesc l).Pairwise (fun a b => b.avgOutcome ≤ a.avgOutcome) := by
  haveI : IsTotal Candidate (fun a b => b.avgOutcome ≤ a.avgOutcome) :=
    ⟨fun a b => le_total b.avgOutcome a.avgOutcome⟩
  haveI : IsTrans Candidate (fun a b => b.avgOutcome ≤ a.avgOutcome) :=
    ⟨fun a b c h1 h2 => le_trans h2 h1⟩
  exact List.sorted_insertionSort _ l

/-- C3 (amended): walked in emission order, the frontier's underlying
averaged fairness gaps are strictly decreasing and its outcomes
non-increasing; after the 4-decimal rounding applied to the emitted
fields both are non-increasing, but strictness of the rounded
`fairnessGap` can be lost when two gaps round to the same 4-decimal
value (see the counterexample). -/
theorem mc_pareto_monotone (P : NoisePrims) (w : ObjectiveWeights)
    (asym : Option StructuralAsymmetry) (numRuns : ℕ) (seed : String) :
    (paretoWalk none
        (sortByOutcomeDesc (mcSortedOf P w (buildGroupProfiles asym) numRuns seed))).Pairwise
      (fun p q => q.avgFairnessGap < p.avgFairnessGap) ∧
    (runMonteCarloAllocation P w asym numRuns seed).paretoFrontier.Pairwise
      (fun p q => q.fairnessGap ≤ p.fairnessGap ∧ q.outcome ≤ p.outcome) := by
  constructor
  · exact paretoWalk_pairwise _ _
  · have hfront : (runMonteCarloAllocation P w asym numRuns seed).paretoFrontier =
        (paretoWalk none
          (sortByOutcomeDesc (mcSortedOf P w (buildGroupProfiles asym) numRuns seed))).map
          roundPoint := rfl
    rw [hfront, List.pairwise_map]
    have hgap := paretoWalk_pairwise
      (sortByOutcomeDesc (mcSortedOf P w (buildGroupProfiles asym) numRuns seed)) none
    have hout :
        (paretoWalk none
          (sortByOutcomeDesc (mcSortedOf P w (buildGroupProfiles asym) numRuns seed))).Pairwise
          (fun a b => b.avgOutcome ≤ a.avgOutcome) :=
      List.Pairwise.sublist (paretoWalk_sublist _ none) (sortByOutcomeDesc_pairwise _)
    exact (hgap.and hout).imp
      (fun hab => ⟨toFixedQ_mono 4 (le_of_lt hab.1), toFixedQ_mono 4 hab.2⟩)

/-! ## Baseline sanity -/

theorem runMCProfiles_efficiencySacrifice (P : NoisePrims) (w : ObjectiveWeights)
    (profiles : List GroupProfile) (numRuns : ℕ) (seed : String) :
    (runMCProfiles P w profiles numRuns seed).efficiencySacrifice =
      toFixedQ 1 (max 0 ((equalOutcomeAvgOf P profiles numRuns seed -
        (mcOptimalOf P w profiles numRuns seed).avgOutcome) /
          equalOutcomeAvgOf P profiles numRuns seed * 100)) := rfl

theorem runMCProfiles_fairnessImprovement (P : NoisePrims) (w : ObjectiveWeights)
    (profiles : List GroupProfile) (numRuns : ℕ) (seed : String) :
    (runMCProfiles P w profiles numRuns seed).fairnessImprovement =
      toFixedQ 1 (if 0 < equalGapAvgOf P profiles numRuns seed then
        max 0 ((equalGapAvgOf P profiles numRuns seed -
          (mcOptimalOf P w profiles numRuns seed).avgFairnessGap) /
            equalGapAvgOf P profiles numRuns seed * 100)
      else 0) := rfl

theorem toFixedQ_zero (f : ℕ) : toFixedQ f 0 = 0 := by
  unfold toFixedQ jsRound
  norm_num

/-- C4: `efficiencySacrifice` and `fairnessImprovement` are never
negative, and a zero equal-split average fairness gap short-circuits
`fairnessImprovement` to the defined value 0 instead of dividing by
zero. -/
theorem mc_baseline_sanity (P : NoisePrims) (w : ObjectiveWeights)
    (asym : Option StructuralAsymmetry) (numRuns : ℕ) (seed : String) :
    0 ≤ (runMonteCarloAllocation P w asym numRuns seed).efficiencySacrifice ∧
    0 ≤ (runMonteCarloAllocation P w asym numRuns seed).fairnessImprovement ∧
    (equalGapAvgOf P (buildGroupProfiles asym) numRuns seed = 0 →
      (runMonteCarloAllocation P w asym numRuns seed).fairnessImprovement = 0) := by
  unfold runMonteCarloAllocation
  refine ⟨?_, ?_, ?_⟩
  · rw [runMCProfiles_efficiencySacrifice]
    exact toFixedQ_nonneg 1 (le_max_left _ _)
  · rw [runMCProfiles_fairnessImprovement]
    split
    · exact toFixedQ_nonneg 1 (le_max_left _ _)
    · rw [toFixedQ_zero]
  · intro hz
    rw [runMCProfiles_fairnessImprovement, if_neg (by rw [hz]; exact lt_irrefl 0), toFixedQ_zero]

unseal Rat.add Rat.mul Rat.inv Rat.sub in
/-- C4 witness: two identical groups under zero noise give a zero
equal-split gap, and the returned fairness improvement is 0. -/
theorem mc_baseline_sanity_witness :
    equalGapAvgOf zeroNoise (buildGroupProfiles (some twinGroupAsym)) 1 ("s") = 0 ∧
    (runMonteCarloAllocation zeroNoise evenWeights (some twinGroupAsym) 1 ("s")).fairnessImprovement
      = 0 :=
  ⟨by decide, (mc_baseline_sanity zeroNoise evenWeights (some twinGroupAsym) 1 ("s")).2.2
    (by decide)⟩

/-! ## Weight validation -/

/-- C5 (amended): the simulator performs no weight validation and no
renormalization: every weights record, malformed ones included, flows
through the full candidate sweep — the result reports
`numRuns * grid-size` total runs and one allocation arm per group
profile, and the weights enter only the per-candidate score. -/
theorem mc_accepts_all_weights (P : NoisePrims) (w : ObjectiveWeights)
    (asym : Option StructuralAsymmetry) (numRuns : ℕ) (seed : String) :
    (runMonteCarloAllocation P w asym numRuns seed).totalRuns =
      numRuns * (generateAllocationGrid P (buildGroupProfiles asym).length 20).length ∧
    (runMonteCarloAllocation P w asym numRuns seed).optimalAllocation.length =
      (buildGroupProfiles asym).length := by
  constructor
  · rfl
  · show ((buildGroupProfiles asym).enum.map _).length = _
    rw [List.length_map, List.enum_length]

/-! ## Single-group behaviour -/

/-- C7 (amended): a single-group asymmetry is treated as sparse data —
the simulator falls back to the default two-group model and runs the
full sweep (it neither raises nor short-circuits to `[1.0]`).  The
`[1.0]`/zero-gap behaviour belongs to a hypothetical single-entry
profile list: the grid generator emits only `[1]` vectors for one
group (the `-ln` draws being positive), and any one-profile simulation
has fairness gap exactly 0. -/
theorem mc_single_group_falls_back (P : NoisePrims) (w : ObjectiveWeights)
    (numRuns : ℕ) (seed : String) :
    (∀ asym : StructuralAsymmetry, asym.groups.length < 2 →
        runMonteCarloAllocation P w (some asym) numRuns seed =
          runMonteCarloAllocation P w none numRuns seed) ∧
    ((∀ st k, 0 < P.negLnDraw st k) →
        generateAllocationGrid P 1 20 = List.replicate 100 [1]) ∧
    (∀ (streamSeed : String) (baseIdx : ℕ) (alloc : List ℚ) (p : GroupProfile),
        (simulateOutcome P streamSeed baseIdx alloc [p]).2 = 0) := by
  refine ⟨?_, ?_, ?_⟩
  · intro asym h
    unfold runMonteCarloAllocation
    have hb : buildGroupProfiles (some asym) = buildGroupProfiles none := by
      simp only [buildGroupProfiles]
      rw [if_pos h]
    rw [hb]
  · intro hpos
    unfold generateAllocationGrid
    rw [if_neg (by norm_num)]
    rw [List.eq_replicate_iff]
    constructor
    · simp
    · intro b hb
      simp only [List.mem_map, List.mem_range] at hb
      obtain ⟨i, hi, rfl⟩ := hb
      show [P.negLnDraw ("grid-" ++ toString 1) (i * 1 + 0) /
        (0 + P.negLnDraw ("grid-" ++ toString 1) (i * 1 + 0))] = [1]
      rw [zero_add, div_self (ne_of_gt (hpos _ _))]
  · intro streamSeed baseIdx alloc p
    exact sub_self _

unseal Rat.add Rat.mul Rat.inv Rat.sub in
/-- C5 counterexample: the malformed weights (200, -50, -50) — with
negative components and an overshooting sum — are not rejected and no
`InvalidWeights` condition exists: the simulator runs its full
21-candidate sweep on them and returns a normal result. -/
theorem mc_invalid_weights_not_rejected :
    ¬ weightsWellFormed badWeights ∧
    (runMonteCarloAllocation zeroNoise badWeights none 1 ("s")).totalRuns = 21 ∧
    (runMonteCarloAllocation zeroNoise badWeights none 1 ("s")).confidence = Confidence.low := by
  refine ⟨?_, by decide, by decide⟩
  intro hwf
  rcases hwf with ⟨hsum, ha, hf, hr⟩
  norm_num [badWeights] at hf

unseal Rat.add Rat.mul Rat.inv Rat.sub in
/-- C7 witness: a concrete single-group asymmetry produces the same
result as no asymmetry at all, and the one-group grid degenerates to
`[1]` vectors. -/
theorem mc_single_group_falls_back_witness :
    oneGroupAsym.groups.length < 2 ∧
    runMonteCarloAllocation zeroNoise evenWeights (some oneGroupAsym) 1 ("s") =
      runMonteCarloAllocation zeroNoise evenWeights none 1 ("s") ∧
    generateAllocationGrid zeroNoise 1 20 = List.replicate 100 [1] :=
  ⟨by decide,
   (mc_single_group_falls_back zeroNoise evenWeights 1 ("s")).1 oneGroupAsym (by decide),
   (mc_single_group_falls_back zeroNoise evenWeights 1 ("s")).2.1
     (fun st k => by norm_num [zeroNoise])⟩

unseal Rat.add Rat.mul Rat.inv Rat.sub in
/-- C7 counterexample: on a single-group asymmetry the simulator does
not short-circuit to the allocation `[1.0]` — it falls back to the
two-group model and returns two allocation arms. -/
theorem mc_single_group_no_shortcircuit :
    (runMonteCarloAllocation zeroNoise evenWeights (some oneGroupAsym) 1
        ("s")).optimalAllocation.map AllocationArm.allocation ≠ [1] := by decide

unseal Rat.add Rat.mul Rat.inv Rat.sub in
/-- C3 counterexample: with the default two-group profiles, one run per
point and a gaussian draw of 1.123 on the first draw of the
`a = 0.05` candidate's stream, the returned frontier has two points
whose underlying gaps 0.00504 and 0.005 both round to `0.005`: the
emitted `fairnessGap` fields are equal, not strictly decreasing. -/
theorem mc_pareto_strict_fails :
    ¬ (runMonteCarloAllocation nearTieNoise evenWeights none 1 ("s")).paretoFrontier.Pairwise
        (fun p q => q.fairnessGap < p.fairnessGap) := by decide
